import Mathlib

/-!
Shallow embedding of the voice-appointment system's conversational core
(`functions/src/index.ts` and the repository's earlier revisions of the same
Firebase function), together with theorems checking the specification's
claims about it.

Modelling conventions:
* JS strings are modelled as `List Char` (`Str`); JS `null`/`undefined`
  string fields as `Option Str`.
* JS truthiness on strings (`""` is falsy) is `truthyStr`; on arrays the
  idiom `arr && arr.length > 0` is `truthyList`.
* JS number division is modelled exactly, in `ℚ`.
* Firestore documents are modelled as records in a per-user list; a query
  is a `filter`, a batch update is a `map`.
-/

abbrev Str := List Char

/-- Convert a Lean string literal to the `List Char` string model. -/
def toL (s : String) : Str := s.data

/-- JS `String.prototype.toLowerCase` (character-wise lowering). -/
def jsToLower (s : Str) : Str := s.map Char.toLower

/-- `needle` is a prefix of `hay` (helper for JS `includes`). -/
def prefOf : Str → Str → Bool
  | [], _ => true
  | _ :: _, [] => false
  | a :: as, b :: bs => a = b && prefOf as bs

/-- JS `hay.includes(needle)`: `needle` occurs contiguously in `hay`. -/
def hasSub : Str → Str → Bool
  | [], needle => prefOf needle []
  | h :: t, needle => prefOf needle (h :: t) || hasSub t needle

/-- JS whitespace characters relevant to `String.prototype.trim`. -/
def isWsChar (c : Char) : Bool := c = ' ' || c = '\t' || c = '\n' || c = '\r'

/-- JS `String.prototype.trim`. -/
def jsTrim (s : Str) : Str :=
  ((s.dropWhile isWsChar).reverse.dropWhile isWsChar).reverse

/-- Truthiness of a JS string-or-null/undefined value (`""` is falsy). -/
def truthyStr : Option Str → Bool
  | some s => !s.isEmpty
  | none => false

/-- The JS idiom `arr && arr.length > 0` for an optional array. -/
def truthyList : Option (List Str) → Bool
  | some l => decide (l.length ≠ 0)
  | none => false

/-- Extract an optional string, with `""` for `null`/`undefined`. -/
def strOf : Option Str → Str
  | some s => s
  | none => []

/-- Extract an optional array, defaulting to the empty array. -/
def listOf : Option (List Str) → List Str
  | some l => l
  | none => []

/-- JS `'a b c'.split(sep)` for a single-character separator. -/
def splitOnChar (c : Char) : Str → List Str
  | [] => [[]]
  | x :: xs =>
    match splitOnChar c xs with
    | [] => [[]]
    | h :: t => if x = c then [] :: h :: t else (x :: h) :: t

/-!
`levenshteinDistance` (src/unnamed/part_000 lines 55–86; identical in
src/unnamed/part_001 lines 81–112).  The source fills a DP matrix with
`matrix[i][0] = i`, `matrix[0][j] = j`, and
`matrix[i][j] = if str2.charAt(i-1) === str1.charAt(j-1) then matrix[i-1][j-1]
else min(matrix[i-1][j-1]+1, matrix[i][j-1]+1, matrix[i-1][j]+1)`,
returning `matrix[str2.length][str1.length]`.  `levFun s1 s2 i j` is
`matrix[i][j]`, computed row by row exactly as the loops do.
-/

/-- One row step of the DP: given row `i` (`prev`), compute row `i+1`. -/
def levRow (s1 s2 : Str) (prev : Nat → Nat) (i : Nat) : Nat → Nat
  | 0 => i + 1
  | j + 1 =>
    if s2.getD i ' ' = s1.getD j ' ' then prev j
    else min (prev j + 1) (min (levRow s1 s2 prev i j + 1) (prev (j + 1) + 1))

/-- `levFun s1 s2 i j` is the DP matrix entry `matrix[i][j]` of the source. -/
def levFun (s1 s2 : Str) : Nat → Nat → Nat
  | 0 => fun j => j
  | i + 1 => levRow s1 s2 (levFun s1 s2 i) i

/-- `levenshteinDistance(str1, str2)` returns `matrix[str2.length][str1.length]`. -/
def levenshteinDistance (str1 str2 : Str) : Nat :=
  levFun str1 str2 str2.length str1.length

/-- `calculateSimilarity` (src/unnamed/part_000 lines 31–47; identical in
src/unnamed/part_001 lines 57–73).  Returns `0` when either input is falsy,
else `(longer.length - distance) / longer.length` with real division,
where `longer` is the longer of the two inputs.  The `try/catch` of the
source cannot fire in the pure model. -/
def calculateSimilarity (str1 str2 : Str) : ℚ :=
  if str1 = [] ∨ str2 = [] then 0
  else
    let longer := if str2.length < str1.length then str1 else str2
    let shorter := if str2.length < str1.length then str2 else str1
    if longer.length = 0 then 1
    else ((longer.length : ℚ) - (levenshteinDistance longer shorter : ℚ)) / (longer.length : ℚ)

/-!
Calendar-sync eligibility and attendee cleaning
(`functions/src/index.ts` lines 956–985).
-/

/-- The fixed all-day keyword list of `isAllDayEvent`. -/
def allDayKeywords : List Str :=
  [toL "birthday", toL "holiday", toL "anniversary", toL "vacation", toL "day off"]

/-- `isAllDayEvent` (index.ts lines 957–963): false on a falsy title, else
true iff the lowercased title contains one of the fixed keywords. -/
def isAllDayEvent (title : Str) : Bool :=
  if title.isEmpty then false
  else allDayKeywords.any fun keyword => hasSub (jsToLower title) keyword

/-- The fields of an appointment inspected by `isReadyForGoogleCalendar`. -/
structure SyncFields where
  title : Str
  date : Option Str
  time : Option Str
deriving DecidableEq, Repr

/-- `isReadyForGoogleCalendar` (index.ts lines 966–974): all-day events only
need a truthy `date`; everything else needs truthy `date` and `time`. -/
def isReadyForGoogleCalendar (a : SyncFields) : Bool :=
  if isAllDayEvent a.title then truthyStr a.date
  else truthyStr a.date && truthyStr a.time

/-- `cleanAttendeeNames` (index.ts lines 977–985): `[]` on a missing or empty
array, else trim each name and drop the ones that are empty after trimming. -/
def cleanAttendeeNames (attendees : Option (List Str)) : List Str :=
  match attendees with
  | none => []
  | some l =>
    if l.length = 0 then []
    else (l.map jsTrim).filter fun a => decide (a.length ≠ 0)

/-!
Appointment creation (`scheduleAppointment`, index.ts lines 1184–1296, and
`createPersonalEvent`, index.ts lines 1298–1395).  Only the construction of
the stored record is modelled; the Firestore write, the partial-context
clearing and the best-effort Google-Calendar sync that follow do not change
the `title`/`time`/`duration`/`attendees` fields written at creation.
-/

/-- The argument object either creation handler receives from a tool call. -/
structure CreateArgs where
  title : Option Str := none
  originalInput : Option Str := none
  date : Option Str := none
  time : Option Str := none
  duration : Option Nat := none
  attendees : Option (List Str) := none
  location : Option Str := none
  description : Option Str := none
deriving DecidableEq, Repr

/-- The JS idiom `v || dflt` on an optional string. -/
def jsStrOr (v : Option Str) (dflt : Str) : Str :=
  if truthyStr v then strOf v else dflt

/-- The JS idiom `v || null` on an optional string. -/
def jsStrOrNull (v : Option Str) : Option Str :=
  if truthyStr v then v else none

/-- Truthiness of an optional JS number (`0` is falsy). -/
def truthyNat : Option Nat → Bool
  | some n => decide (n ≠ 0)
  | none => false

/-- The JS idiom `v || dflt` on an optional number. -/
def jsNatOr (v : Option Nat) (dflt : Nat) : Nat :=
  if truthyNat v then v.getD dflt else dflt

/-- The stored appointment record as written at creation. -/
structure ApptRecord where
  title : Str
  date : Str
  time : Option Str
  duration : Option Nat
  attendees : List Str
  status : Str
  location : Option Str := none
  description : Option Str := none
deriving DecidableEq, Repr

/-- `scheduleAppointment` (index.ts lines 1202–1217): `none` when `date` is
falsy (the handler returns a failure asking for the date and creates
nothing); otherwise the record written to Firestore. -/
def scheduleAppointment (details : CreateArgs) : Option ApptRecord :=
  if !truthyStr details.date then none
  else some
    { title := jsStrOr details.title (jsStrOr details.originalInput (toL "Meeting"))
      date := strOf details.date
      time := jsStrOrNull details.time
      duration := if truthyStr details.time then some (jsNatOr details.duration 30) else none
      attendees := cleanAttendeeNames details.attendees
      status := toL "scheduled" }

/-- `createPersonalEvent` (index.ts lines 1316–1330): `none` when `date` is
falsy; otherwise the record written to Firestore (no attendees field). -/
def createPersonalEvent (details : CreateArgs) : Option ApptRecord :=
  if !truthyStr details.date then none
  else some
    { title := jsStrOr details.title (jsStrOr details.originalInput (toL "Personal Event"))
      date := strOf details.date
      time := jsStrOrNull details.time
      duration := if truthyStr details.time then some (jsNatOr details.duration 60) else none
      attendees := []
      status := toL "scheduled"
      location := jsStrOrNull details.location
      description := jsStrOrNull details.description }

/-!
Cancellation, current revision (`cancelAppointments` and
`cancelAllAppointmentsForDate`, index.ts lines 1397–1618).  The per-user
Firestore appointments collection is a `List StoredAppt`; the queries
`where('date','==',…)`, `where('date','>=',…)/('<=',…)` and
`where('status','!=','cancelled')` are filters, and the status updates are
maps over the store.  Timestamps (`cancelledAt`) and the best-effort Google
Calendar deletions, which never change local state, are not modelled.
-/

/-- A stored appointment document as seen by the cancellation flows. -/
structure StoredAppt where
  id : Str
  title : Str
  date : Str
  time : Option Str
  status : Str
  attendees : Option (List Str) := none
  googleCalendarEventId : Option Str := none
deriving DecidableEq, Repr

/-- The argument object of a `cancel_appointment` tool call. -/
structure CancelDetails where
  title : Option Str := none
  date : Option Str := none
  time : Option Str := none
  attendees : Option (List Str) := none
deriving DecidableEq, Repr

def cancelledStatus : Str := toL "cancelled"

/-- Lexicographic string comparison, as Firestore orders string fields for
range queries on `date`. -/
def lexLe : Str → Str → Bool
  | [], _ => true
  | _ :: _, [] => false
  | a :: as, b :: bs => if a = b then lexLe as bs else decide (a < b)

/-- The filter of the single-date cancellation query:
`date == details.date` and `status != 'cancelled'`. -/
def dateStatusMatch (ds : Str) (a : StoredAppt) : Bool :=
  decide (a.date = ds) && decide (a.status ≠ cancelledStatus)

/-- The per-document selection test of `cancelAppointments` (index.ts lines
1429–1453): `shouldCancel` starts `true` and each provided criterion —
title containment, time equality, attendee substring — can only veto. -/
def shouldCancelAppt (d : CancelDetails) (a : StoredAppt) : Bool :=
  let s1 :=
    if truthyStr d.title then
      if hasSub (jsToLower a.title) (jsToLower (strOf d.title)) then true else false
    else true
  let s2 :=
    if truthyStr d.time && s1 then
      if decide (a.time = d.time) then s1 else false
    else s1
  let s3 :=
    if truthyList d.attendees && s2 then
      if (listOf d.attendees).any
          (fun q => (listOf a.attendees).any fun x => hasSub (jsToLower x) (jsToLower q)) then
        s2
      else false
    else s2
  s3

/-- Result fields of `cancelAppointments` relevant to the claims. -/
structure IndexCancelResult where
  success : Bool
  cancelledCount : Nat
deriving DecidableEq, Repr

/-- `cancelAppointments` (index.ts lines 1397–1512) as a transformation of
the stored appointment list: a missing date throws (caught into a failure
result), an empty query snapshot reports "no appointments found", and
otherwise every queried document passing `shouldCancelAppt` has its status
set to `cancelled`. -/
def cancelAppointments (d : CancelDetails) (store : List StoredAppt) :
    List StoredAppt × IndexCancelResult :=
  if !truthyStr d.date then (store, ⟨false, 0⟩)
  else
    let ds := strOf d.date
    let docs := store.filter (dateStatusMatch ds)
    if docs.isEmpty then (store, ⟨false, 0⟩)
    else
      let cnt := docs.countP (shouldCancelAppt d)
      let store' := store.map fun a =>
        if dateStatusMatch ds a && shouldCancelAppt d a then
          { a with status := cancelledStatus }
        else a
      if cnt = 0 then (store', ⟨false, 0⟩) else (store', ⟨true, cnt⟩)

/-- Result fields of `cancelAllAppointmentsForDate`. -/
structure BulkCancelResult where
  success : Bool
  cancelledCount : Nat
deriving DecidableEq, Repr

/-- The filter of the bulk cancellation query: `date` in
`[startDate, endDate]` and `status != 'cancelled'`. -/
def bulkQueryMatch (s e : Str) (a : StoredAppt) : Bool :=
  lexLe s a.date && lexLe a.date e && decide (a.status ≠ cancelledStatus)

/-- `cancelAllAppointmentsForDate` (index.ts lines 1517–1618): `end_date`
defaults to `start_date`; every non-cancelled appointment in the range is
set to `cancelled` in one batch; the result is always `success: true` with
the count of batched documents. -/
def cancelAllAppointmentsForDate (startDate : Str) (endDate : Option Str)
    (store : List StoredAppt) : List StoredAppt × BulkCancelResult :=
  let e := if truthyStr endDate then strOf endDate else startDate
  let docs := store.filter (bulkQueryMatch startDate e)
  if docs.isEmpty then (store, ⟨true, 0⟩)
  else
    (store.map fun a =>
        if bulkQueryMatch startDate e a then { a with status := cancelledStatus } else a,
      ⟨true, docs.length⟩)

/-!
Cancellation, earlier revision (`cancelAppointments`, src/unnamed/part_001
lines 500–676).  This revision fetches every appointment on the date
(no status filter), deletes matches from the store, and when nothing
matched but a query title was given computes "did you mean" suggestions
from the similarity score.  Documents with a falsy `title` are skipped as
invalid.  When `details.title` is `undefined`, evaluating
`details.title.toLowerCase()` inside the matcher throws a TypeError that the
per-document `try/catch` turns into a skip, so such a document never
matches.
-/

/-- A stored appointment document as seen by the part_001 revision. -/
structure LegacyDoc where
  id : Str
  title : Str
  date : Str
  time : Option Str
  attendees : Option (List Str) := none
  googleCalendarEventId : Option Str := none
deriving DecidableEq, Repr

/-- `titleMatch` (part_001 lines 537–538). -/
def legacyTitleMatch (qTitle : Str) (a : LegacyDoc) : Bool :=
  !a.title.isEmpty && hasSub (jsToLower a.title) (jsToLower qTitle)

/-- `timeMatch` (part_001 line 540). -/
def legacyTimeMatch (d : CancelDetails) (a : LegacyDoc) : Bool :=
  truthyStr d.time && decide (a.time = d.time)

/-- `attendeeMatch` (part_001 lines 542–547). -/
def legacyAttendeeMatch (d : CancelDetails) (a : LegacyDoc) : Bool :=
  truthyList d.attendees &&
    match a.attendees with
    | some la =>
      la.any fun att => (listOf d.attendees).any fun s => hasSub (jsToLower att) (jsToLower s)
    | none => false

/-- `fuzzyMatch` (part_001 lines 549–561): substring containment in either
direction, or some word of the appointment title contained in the query
title. -/
def legacyFuzzyMatch (qTitle : Str) (a : LegacyDoc) : Bool :=
  if !a.title.isEmpty && !qTitle.isEmpty then
    hasSub (jsToLower a.title) (jsToLower qTitle) ||
      hasSub (jsToLower qTitle) (jsToLower a.title) ||
      (splitOnChar ' ' (jsToLower a.title)).any fun word => hasSub (jsToLower qTitle) word
  else false

/-- The selection disjunction of part_001 line 563
(`titleMatch || timeMatch || attendeeMatch || fuzzyMatch`); with an
`undefined` query title the document body throws and is skipped. -/
def legacyMatches (d : CancelDetails) (a : LegacyDoc) : Bool :=
  match d.title with
  | none => false
  | some qt =>
    legacyTitleMatch qt a || legacyTimeMatch d a || legacyAttendeeMatch d a ||
      legacyFuzzyMatch qt a

/-- The documents on the query date that carry valid data (truthy title),
i.e. the `availableAppointments` list of part_001 lines 528–534. -/
def legacyDocsOnDate (d : CancelDetails) (store : List LegacyDoc) : List LegacyDoc :=
  (store.filter fun a => decide (a.date = strOf d.date)).filter fun a => !a.title.isEmpty

/-- The display line `` `title at time( with a, b)` `` used for suggestions
and for the available-appointments listing (part_001 lines 622, 654). -/
def legacyFmtLine (a : LegacyDoc) : Str :=
  a.title ++ toL " at " ++ strOf a.time ++
    (if (listOf a.attendees).length > 0 then
        toL " with " ++ List.intercalate (toL ", ") (listOf a.attendees)
      else [])

/-- Result fields of the part_001 `cancelAppointments`. -/
structure LegacyResult where
  success : Bool
  cancelledCount : Nat
  suggestions : List Str
  availableList : List Str
deriving DecidableEq, Repr

/-- `cancelAppointments` of the part_001 revision as a transformation of the
stored list: a missing date or missing title-and-attendees throws (failure,
no change); matched valid documents on the date are deleted in one batch;
with zero matches and a truthy query title, every valid document on the
date whose title scores similarity strictly above `0.3` against the query
title becomes a "did you mean" suggestion and nothing is mutated. -/
def cancelAppointmentsLegacy (d : CancelDetails) (store : List LegacyDoc) :
    List LegacyDoc × LegacyResult :=
  if !truthyStr d.date || (!truthyStr d.title && !truthyList d.attendees) then
    (store, ⟨false, 0, [], []⟩)
  else
    let valid := legacyDocsOnDate d store
    let matched := valid.filter (legacyMatches d)
    if matched.length > 0 then
      (store.filter fun a =>
          !(decide (a.date = strOf d.date) && !a.title.isEmpty && legacyMatches d a),
        ⟨true, matched.length, [], []⟩)
    else
      let sugg :=
        if truthyStr d.title then
          (valid.filter fun a =>
              decide ((3 : ℚ) / 10 <
                calculateSimilarity (jsToLower (strOf d.title)) (jsToLower a.title))).map
            legacyFmtLine
        else []
      (store, ⟨false, 0, sugg, valid.map legacyFmtLine⟩)

/-!
Turn-level error handling of `processVoiceCommand`
(index.ts lines 1774–2004).  The two polling loops throw
`'Assistant run timed out'` (line 1888) and
`'Assistant run timed out after function calls'` (line 1933); the catch
block (lines 1980–2003) classifies the caught error by substring tests on
its message and always returns a `success: false` result rather than
rethrowing.
-/

def timeoutRunMsg : Str := toL "Assistant run timed out"

def timeoutRunAfterToolsMsg : Str := toL "Assistant run timed out after function calls"

def takingLongerMsg : Str := toL "The request is taking longer than usual. Please try again."

def configIssueMsg : Str := toL "There\x27s a configuration issue. Please contact support."

def genericTurnErrorMsg : Str :=
  toL "I encountered an error while processing your request. Please try again."

/-- The user-facing turn result. -/
structure TurnResult where
  success : Bool
  message : Str
deriving DecidableEq, Repr

/-- The catch block of `processVoiceCommand` (index.ts lines 1980–2003):
`error.message.includes('timeout')` selects the taking-longer message,
`includes('API key')` the configuration message, anything else the generic
apology; the result always carries `success: false`. -/
def catchTurnError (errMsg : Str) : TurnResult :=
  if hasSub errMsg (toL "timeout") then ⟨false, takingLongerMsg⟩
  else if hasSub errMsg (toL "API key") then ⟨false, configIssueMsg⟩
  else ⟨false, genericTurnErrorMsg⟩

/-!
Command validation at the turn entry point (`validateCommand`, index.ts
lines 662–668, called from `processVoiceCommand` at line 1781 before the
OpenAI client is obtained and before any assistant, thread, context or
message operation).
-/

/-- A JS value as it may arrive in the request payload's `command` field. -/
inductive JSVal where
  | vStr : Str → JSVal
  | vNum : Int → JSVal
  | vBool : Bool → JSVal
  | vNull : JSVal
  | vUndef : JSVal
deriving DecidableEq, Repr

/-- JS truthiness of a value. -/
def jsTruthy : JSVal → Bool
  | .vStr s => !s.isEmpty
  | .vNum n => decide (n ≠ 0)
  | .vBool b => b
  | .vNull => false
  | .vUndef => false

/-- JS `typeof command === 'string'`. -/
def isStringVal : JSVal → Bool
  | .vStr _ => true
  | _ => false

def commandInvalidMsg : Str := toL "The command text is missing or invalid."

/-- `validateCommand` (index.ts lines 662–668): throw when the command is
falsy, not a string, or trims to the empty string; otherwise return the
trimmed command.  The final fall-through arm is unreachable because every
non-string value fails the guard. -/
def validateCommand (command : JSVal) : Except Str Str :=
  if !jsTruthy command ||
      (!isStringVal command ||
        (match command with
          | .vStr s => decide ((jsTrim s).length = 0)
          | _ => true)) then
    .error commandInvalidMsg
  else
    match command with
    | .vStr s => .ok (jsTrim s)
    | _ => .error commandInvalidMsg

/-- The downstream side-effecting operations of one turn, in program order
(index.ts lines 1785–1876). -/
inductive TurnOp where
  | openaiInit
  | assistantResolve
  | threadResolve
  | contextRead
  | messageAppend
  | runCreate
deriving DecidableEq, Repr

/-- The entry prefix of `processVoiceCommand` (index.ts lines 1774–1876):
the command is validated first; only on success do the OpenAI client,
assistant, thread, partial-context and message-append operations run, on
the trimmed command text.  A validation error aborts the turn with no
operation performed. -/
def processVoiceCommandPrefix (command : JSVal) : Except Str (Str × List TurnOp) :=
  match validateCommand command with
  | .error e => .error e
  | .ok cmd =>
    .ok (cmd, [TurnOp.openaiInit, TurnOp.assistantResolve, TurnOp.threadResolve,
      TurnOp.contextRead, TurnOp.messageAppend, TurnOp.runCreate])

/-!
`getCurrentDateInTimezone` (index.ts lines 988–1010).  The
`Intl.DateTimeFormat('en-US', {timeZone, year:'numeric', month:'2-digit',
day:'2-digit'}).formatToParts(new Date())` call is modelled as an
environment parameter `intl` returning the year/month/day part values, or
`.error` when the constructor throws on an unrecognized timezone; the
fallback `new Date().toISOString().slice(0, 10)` is the parameter
`utcToday`.  A missing part (`?.value` yielding `undefined`) interpolates
into the template literal as the text `undefined`.
-/

/-- The year/month/day parts extracted from the Intl formatter output. -/
structure IntlParts where
  year : Option Str
  month : Option Str
  day : Option Str
deriving DecidableEq, Repr

/-- JS template-literal interpolation of a possibly-undefined value. -/
def optPartValue : Option Str → Str
  | some s => s
  | none => toL "undefined"

/-- `getCurrentDateInTimezone` (index.ts lines 988–1010): format the current
date in the requested timezone as `` `year-month-day` ``; any error is
caught and the current UTC date is returned instead. -/
def getCurrentDateInTimezone (timezone : Str)
    (intl : Str → Except Unit IntlParts) (utcToday : Str) : Str :=
  match intl timezone with
  | .ok parts =>
    optPartValue parts.year ++ toL "-" ++ optPartValue parts.month ++ toL "-" ++
      optPartValue parts.day
  | .error _ => utcToday

/-- Decimal digit test. -/
def isDigitCh (c : Char) : Bool := decide ('0' ≤ c) && decide (c ≤ '9')

/-- The `YYYY-MM-DD` shape: ten characters, digits with dashes at
positions 4 and 7. -/
def isYmdFormat : Str → Bool
  | [y1, y2, y3, y4, h1, m1, m2, h2, d1, d2] =>
    isDigitCh y1 && isDigitCh y2 && isDigitCh y3 && isDigitCh y4 &&
      decide (h1 = '-') && isDigitCh m1 && isDigitCh m2 && decide (h2 = '-') &&
      isDigitCh d1 && isDigitCh d2
  | _ => false

/-!
Theorems settling the claims, with shared helper lemmas.
-/

theorem levFun_zero (s1 s2 : Str) (j : Nat) : levFun s1 s2 0 j = j := rfl

theorem levFun_succ_zero (s1 s2 : Str) (i : Nat) : levFun s1 s2 (i + 1) 0 = i + 1 := rfl

theorem levFun_succ_succ (s1 s2 : Str) (i j : Nat) :
    levFun s1 s2 (i + 1) (j + 1) =
      if s2.getD i ' ' = s1.getD j ' ' then levFun s1 s2 i j
      else min (levFun s1 s2 i j + 1)
        (min (levFun s1 s2 (i + 1) j + 1) (levFun s1 s2 i (j + 1) + 1)) := rfl

theorem levFun_symm (s1 s2 : Str) :
    ∀ n i j, i + j = n → levFun s1 s2 i j = levFun s2 s1 j i := by
  intro n
  induction n using Nat.strong_induction_on with
  | _ n ih =>
    intro i j hn
    match i, j with
    | 0, 0 => rfl
    | 0, j + 1 => rfl
    | i + 1, 0 => rfl
    | i + 1, j + 1 =>
      rw [levFun_succ_succ s1 s2 i j, levFun_succ_succ s2 s1 j i]
      have h1 : levFun s1 s2 i j = levFun s2 s1 j i :=
        ih (i + j) (by omega) i j rfl
      have h2 : levFun s1 s2 (i + 1) j = levFun s2 s1 j (i + 1) :=
        ih (i + 1 + j) (by omega) (i + 1) j rfl
      have h3 : levFun s1 s2 i (j + 1) = levFun s2 s1 (j + 1) i :=
        ih (i + (j + 1)) (by omega) i (j + 1) rfl
      by_cases h : s2.getD i ' ' = s1.getD j ' '
      · rw [if_pos h, if_pos h.symm, h1]
      · rw [if_neg h, if_neg fun hh => h hh.symm, h1, h2, h3]
        omega

theorem levenshteinDistance_comm (a b : Str) :
    levenshteinDistance a b = levenshteinDistance b a :=
  levFun_symm a b (b.length + a.length) b.length a.length rfl

theorem levFun_diag_self (a : Str) : ∀ i, levFun a a i i = 0 := by
  intro i
  induction i with
  | zero => rfl
  | succ i ihi =>
    rw [levFun_succ_succ, if_pos rfl, ihi]

theorem levenshteinDistance_self (a : Str) : levenshteinDistance a a = 0 :=
  levFun_diag_self a a.length

theorem calculateSimilarity_formula (a b : Str) (ha : a ≠ []) (hb : b ≠ []) :
    calculateSimilarity a b =
      1 - (levenshteinDistance a b : ℚ) / ((max a.length b.length : Nat) : ℚ) := by
  have hla : a.length ≠ 0 := fun h => ha (List.length_eq_zero.mp h)
  have hlb : b.length ≠ 0 := fun h => hb (List.length_eq_zero.mp h)
  simp only [calculateSimilarity, if_neg (by tauto : ¬(a = [] ∨ b = []))]
  by_cases hlt : b.length < a.length
  · simp only [if_pos hlt, if_neg hla]
    have hmax : max a.length b.length = a.length := Nat.max_eq_left (Nat.le_of_lt hlt)
    rw [hmax, sub_div, div_self (Nat.cast_ne_zero.mpr hla)]
  · simp only [if_neg hlt, if_neg hlb]
    have hmax : max a.length b.length = b.length := Nat.max_eq_right (Nat.le_of_not_lt hlt)
    rw [hmax, levenshteinDistance_comm b a, sub_div, div_self (Nat.cast_ne_zero.mpr hlb)]

/-- Claim C6: the similarity function returns `1.0` on any non-empty string
paired with itself, `0.0` whenever either argument is empty, and otherwise
equals `1 - levenshteinDistance(a, b) / max(|a|, |b|)`. -/
theorem claim_C6 :
    (∀ a : Str, a ≠ [] → calculateSimilarity a a = 1) ∧
    (∀ a b : Str, a = [] ∨ b = [] → calculateSimilarity a b = 0) ∧
    (∀ a b : Str, a ≠ [] → b ≠ [] →
      calculateSimilarity a b =
        1 - (levenshteinDistance a b : ℚ) / ((max a.length b.length : Nat) : ℚ)) := by
  refine ⟨?_, ?_, fun a b ha hb => calculateSimilarity_formula a b ha hb⟩
  · intro a ha
    have hlen : a.length ≠ 0 := fun h => ha (List.length_eq_zero.mp h)
    have hcast : (a.length : ℚ) ≠ 0 := Nat.cast_ne_zero.mpr hlen
    simp only [calculateSimilarity, lt_irrefl, if_false, if_neg (by tauto : ¬(a = [] ∨ a = []))]
    rw [if_neg hlen, levenshteinDistance_self]
    rw [Nat.cast_zero, sub_zero, div_self hcast]
  · intro a b hab
    simp only [calculateSimilarity, if_pos hab]

/-- Witness for claim C6 at concrete inputs. -/
theorem claim_C6_witness :
    calculateSimilarity (toL "cat") (toL "cat") = 1 ∧
    calculateSimilarity [] (toL "cat") = 0 ∧
    calculateSimilarity (toL "ab") (toL "b") =
      1 - (levenshteinDistance (toL "ab") (toL "b") : ℚ)
        / ((max (toL "ab").length (toL "b").length : Nat) : ℚ) :=
  ⟨claim_C6.1 (toL "cat") (by decide),
   claim_C6.2.1 [] (toL "cat") (Or.inl rfl),
   claim_C6.2.2 (toL "ab") (toL "b") (by decide) (by decide)⟩

/-- Claim C4: an appointment is sync-eligible iff (its title contains one of
the fixed all-day keywords case-insensitively and its date is present) or
(its date and its time are both present); in particular a non-matching title
with no time is never sync-eligible. -/
theorem claim_C4 :
    ∀ a : SyncFields,
      (isReadyForGoogleCalendar a = true ↔
        ((allDayKeywords.any fun keyword => hasSub (jsToLower a.title) keyword) = true ∧
            truthyStr a.date = true) ∨
          (truthyStr a.date = true ∧ truthyStr a.time = true)) ∧
      ((allDayKeywords.all fun keyword => !hasSub (jsToLower a.title) keyword) = true →
        truthyStr a.time = false → isReadyForGoogleCalendar a = false) := by
  intro a
  have hconn : isAllDayEvent a.title =
      allDayKeywords.any fun keyword => hasSub (jsToLower a.title) keyword := by
    by_cases h : a.title.isEmpty
    · have ht : a.title = [] := by
        revert h; cases a.title <;> simp
      simp only [isAllDayEvent, if_pos h, ht]
      decide
    · simp only [isAllDayEvent, if_neg h]
  constructor
  · rw [isReadyForGoogleCalendar, hconn]
    by_cases hk : (allDayKeywords.any fun keyword => hasSub (jsToLower a.title) keyword) = true
    · rw [if_pos hk]
      cases hd : truthyStr a.date <;> cases htm : truthyStr a.time <;> simp [hk, hd, htm]
    · rw [if_neg hk]
      cases hd : truthyStr a.date <;> cases htm : truthyStr a.time <;> simp [hk, hd, htm]
  · intro hall htm
    have hk : (allDayKeywords.any fun keyword => hasSub (jsToLower a.title) keyword) = false := by
      cases hh : allDayKeywords.any fun keyword => hasSub (jsToLower a.title) keyword
      · rfl
      · exfalso
        rcases List.any_eq_true.mp hh with ⟨kw, hkw, hsub⟩
        have := List.all_eq_true.mp hall kw hkw
        simp [hsub] at this
    rw [isReadyForGoogleCalendar, hconn, hk]
    simp [htm]

/-- Witness for claim C4 at a concrete all-day title, and a concrete
non-matching title with no time. -/
theorem claim_C4_witness :
    isReadyForGoogleCalendar
      { title := toL "Team Sync", date := some (toL "2025-07-25"), time := none } = false :=
  (claim_C4 _).2 (by decide) (by decide)

/-- Claim C5: a creation call with a date but no (truthy) time stores
`time = null` and `duration = null`, and every record either creation
operation produces satisfies the invariant that an unset time implies an
unset duration. -/
theorem claim_C5 :
    ∀ (details : CreateArgs) (r : ApptRecord),
      scheduleAppointment details = some r ∨ createPersonalEvent details = some r →
      (truthyStr details.time = false → r.time = none ∧ r.duration = none) ∧
      (r.time = none → r.duration = none) := by
  intro details r hr
  have hfields : r.time = jsStrOrNull details.time ∧
      ((r.duration = if truthyStr details.time then some (jsNatOr details.duration 30) else none) ∨
        (r.duration = if truthyStr details.time then some (jsNatOr details.duration 60) else none)) := by
    rcases hr with h | h
    · rw [scheduleAppointment] at h
      by_cases hd : truthyStr details.date
      · rw [if_neg (by simp [hd])] at h
        cases h
        exact ⟨rfl, Or.inl rfl⟩
      · rw [if_pos (by simp [hd])] at h
        cases h
    · rw [createPersonalEvent] at h
      by_cases hd : truthyStr details.date
      · rw [if_neg (by simp [hd])] at h
        cases h
        exact ⟨rfl, Or.inr rfl⟩
      · rw [if_pos (by simp [hd])] at h
        cases h
  obtain ⟨htime, hdur⟩ := hfields
  constructor
  · intro hnt
    rw [htime, jsStrOrNull, if_neg (by simp [hnt])]
    rcases hdur with h | h <;> rw [h, if_neg (by simp [hnt])] <;> exact ⟨rfl, rfl⟩
  · intro hrt
    by_cases ht : truthyStr details.time
    · exfalso
      rw [htime, jsStrOrNull, if_pos ht] at hrt
      cases hd : details.time with
      | none => rw [hd] at ht; simp [truthyStr] at ht
      | some s => rw [hd] at hrt; cases hrt
    · rcases hdur with h | h <;> rw [h, if_neg ht]

/-- Witness for claim C5 at a concrete date-only scheduling call. -/
theorem claim_C5_witness :
    (scheduleAppointment
        (CreateArgs.mk none none (some (toL "2025-07-25")) none none none none none)).map
      ApptRecord.time = some none ∧
    (scheduleAppointment
        (CreateArgs.mk none none (some (toL "2025-07-25")) none none none none none)).map
      ApptRecord.duration = some none := by
  have heq : scheduleAppointment
      (CreateArgs.mk none none (some (toL "2025-07-25")) none none none none none) =
      some (ApptRecord.mk (toL "Meeting") (toL "2025-07-25") none none [] (toL "scheduled")
        none none) := by decide
  have h := (claim_C5
    (CreateArgs.mk none none (some (toL "2025-07-25")) none none none none none)
    (ApptRecord.mk (toL "Meeting") (toL "2025-07-25") none none [] (toL "scheduled") none none)
    (Or.inl heq)).1 (by decide)
  rw [heq]
  exact ⟨by simp [h.1], by simp [h.2]⟩

/-- Claim C8 counterexample: `cleanAttendeeNames` keeps duplicate names, so
the claimed deduplication does not happen. -/
theorem claim_C8_counterexample :
    cleanAttendeeNames (some [toL "John", toL "John"]) = [toL "John", toL "John"] ∧
    ¬ (cleanAttendeeNames (some [toL "John", toL "John"])).Nodup :=
  ⟨by decide, by decide⟩

/-- Claim C8 (amended): the stored attendee list is exactly the supplied
names trimmed with empty-after-trim names removed — duplicates are kept —
and every supplied name whose trim is non-empty is stored regardless of its
content (no email validation). -/
theorem claim_C8_amended :
    ∀ l : List Str,
      cleanAttendeeNames (some l) = (l.map jsTrim).filter (fun a => a ≠ []) ∧
      (∀ a ∈ cleanAttendeeNames (some l), a ≠ [] ∧ ∃ b ∈ l, a = jsTrim b) ∧
      (∀ b ∈ l, jsTrim b ≠ [] → jsTrim b ∈ cleanAttendeeNames (some l)) := by
  intro l
  have heq : cleanAttendeeNames (some l) = (l.map jsTrim).filter (fun a => a ≠ []) := by
    rw [cleanAttendeeNames]
    by_cases hl : l.length = 0
    · have : l = [] := List.length_eq_zero.mp hl
      subst this
      simp
    · rw [if_neg hl]
      apply List.filter_congr
      intro a _
      cases a <;> simp
  refine ⟨heq, ?_, ?_⟩
  · intro a ha
    rw [heq] at ha
    have hmem := List.mem_filter.mp ha
    have hne : a ≠ [] := by simpa using hmem.2
    rcases List.mem_map.mp hmem.1 with ⟨b, hb, hab⟩
    exact ⟨hne, b, hb, hab.symm⟩
  · intro b hb hne
    rw [heq]
    exact List.mem_filter.mpr ⟨List.mem_map.mpr ⟨b, hb, rfl⟩, by simpa using hne⟩

/-- Witness for the amended claim C8 at a concrete attendee list with
whitespace, an empty entry, and an at-sign-free name. -/
theorem claim_C8_witness :
    cleanAttendeeNames (some [toL " Bob ", toL "  ", toL "Ann"]) =
      (([toL " Bob ", toL "  ", toL "Ann"]).map jsTrim).filter (fun a => a ≠ []) :=
  (claim_C8_amended [toL " Bob ", toL "  ", toL "Ann"]).1

/-- Claim C3: bulk cancellation over a date range sets exactly the
non-cancelled in-range records to `cancelled`, leaves every other record
(already-cancelled or out of range) untouched element by element, and
returns `success: true` with `cancelledCount` equal to the number of
non-cancelled in-range records. -/
theorem claim_C3 :
    ∀ (startDate : Str) (endDate : Option Str) (store : List StoredAppt),
      (cancelAllAppointmentsForDate startDate endDate store).2.success = true ∧
      (cancelAllAppointmentsForDate startDate endDate store).2.cancelledCount =
        store.countP
          (bulkQueryMatch startDate (if truthyStr endDate then strOf endDate else startDate)) ∧
      (cancelAllAppointmentsForDate startDate endDate store).1.length = store.length ∧
      ∀ (i : Nat) (a : StoredAppt), store[i]? = some a →
        (bulkQueryMatch startDate (if truthyStr endDate then strOf endDate else startDate) a =
            true →
          ((cancelAllAppointmentsForDate startDate endDate store).1)[i]? =
            some { a with status := cancelledStatus }) ∧
        (bulkQueryMatch startDate (if truthyStr endDate then strOf endDate else startDate) a =
            false →
          ((cancelAllAppointmentsForDate startDate endDate store).1)[i]? = some a) := by
  intro startDate endDate store
  set e := if truthyStr endDate then strOf endDate else startDate with he
  by_cases hdoc : (store.filter (bulkQueryMatch startDate e)).isEmpty
  · have hnil : store.filter (bulkQueryMatch startDate e) = [] := List.isEmpty_iff.mp hdoc
    have hout : cancelAllAppointmentsForDate startDate endDate store = (store, ⟨true, 0⟩) := by
      rw [cancelAllAppointmentsForDate]
      simp only [← he, if_pos hdoc]
    rw [hout]
    refine ⟨rfl, ?_, rfl, ?_⟩
    · rw [List.countP_eq_length_filter, hnil]
      rfl
    · intro i a ha
      have hmem : a ∈ store := List.getElem?_mem ha
      have hnot : ¬ bulkQueryMatch startDate e a = true :=
        List.filter_eq_nil_iff.mp hnil a hmem
      exact ⟨fun hb => absurd hb hnot, fun _ => ha⟩
  · have hout : cancelAllAppointmentsForDate startDate endDate store =
        (store.map fun a =>
            if bulkQueryMatch startDate e a then { a with status := cancelledStatus } else a,
          ⟨true, (store.filter (bulkQueryMatch startDate e)).length⟩) := by
      rw [cancelAllAppointmentsForDate]
      simp only [← he, if_neg hdoc]
    rw [hout]
    refine ⟨rfl, ?_, by simp, ?_⟩
    · rw [List.countP_eq_length_filter]
    · intro i a ha
      constructor
      · intro hb
        rw [List.getElem?_map, ha]
        simp [hb]
      · intro hb
        rw [List.getElem?_map, ha]
        simp [hb]

/-- Witness for claim C3 on a concrete three-day range with one already
cancelled record, one in-range record, and one out-of-range record. -/
theorem claim_C3_witness :
    (cancelAllAppointmentsForDate (toL "2025-07-24") (some (toL "2025-07-26"))
        [⟨toL "a1", toL "Review", toL "2025-07-25", some (toL "10:00"), toL "scheduled", none, none⟩,
         ⟨toL "a2", toL "Gym", toL "2025-07-25", none, toL "cancelled", none, none⟩,
         ⟨toL "a3", toL "Call", toL "2025-07-28", none, toL "scheduled", none, none⟩]).2.success =
      true ∧
    ((cancelAllAppointmentsForDate (toL "2025-07-24") (some (toL "2025-07-26"))
        [⟨toL "a1", toL "Review", toL "2025-07-25", some (toL "10:00"), toL "scheduled", none, none⟩,
         ⟨toL "a2", toL "Gym", toL "2025-07-25", none, toL "cancelled", none, none⟩,
         ⟨toL "a3", toL "Call", toL "2025-07-28", none, toL "scheduled", none, none⟩]).1)[1]? =
      some ⟨toL "a2", toL "Gym", toL "2025-07-25", none, toL "cancelled", none, none⟩ := by
  refine ⟨(claim_C3 (toL "2025-07-24") (some (toL "2025-07-26")) _).1, ?_⟩
  exact (((claim_C3 (toL "2025-07-24") (some (toL "2025-07-26")) _).2.2.2 1
    ⟨toL "a2", toL "Gym", toL "2025-07-25", none, toL "cancelled", none, none⟩ (by decide)).2
      (by decide))

theorem shouldCancelAppt_eq (d : CancelDetails) (a : StoredAppt) :
    shouldCancelAppt d a =
      ((!truthyStr d.title || hasSub (jsToLower a.title) (jsToLower (strOf d.title))) &&
        ((!truthyStr d.time || decide (a.time = d.time)) &&
          (!truthyList d.attendees ||
            (listOf d.attendees).any
              fun q => (listOf a.attendees).any fun x => hasSub (jsToLower x) (jsToLower q)))) := by
  simp only [shouldCancelAppt]
  generalize hasSub (jsToLower a.title) (jsToLower (strOf d.title)) = b1
  generalize decide (a.time = d.time) = b2
  generalize ((listOf d.attendees).any
    fun q => (listOf a.attendees).any fun x => hasSub (jsToLower x) (jsToLower q)) = b3
  cases truthyStr d.title <;> cases truthyStr d.time <;> cases truthyList d.attendees <;>
    cases b1 <;> cases b2 <;> cases b3 <;> rfl

/-- Claim C1 counterexample: a stored non-cancelled appointment on the query
date whose time equals the provided query time (one of the claimed
sufficient criteria) is NOT selected for cancellation, because the provided
query title fails its containment check — the code requires all provided
criteria to hold, not any. -/
theorem claim_C1_counterexample :
    (StoredAppt.mk (toL "a1") (toL "team meeting") (toL "2025-07-25") (some (toL "10:00"))
          (toL "scheduled") none none).status ≠ cancelledStatus ∧
    (StoredAppt.mk (toL "a1") (toL "team meeting") (toL "2025-07-25") (some (toL "10:00"))
          (toL "scheduled") none none).date =
      strOf (CancelDetails.mk (some (toL "dentist")) (some (toL "2025-07-25"))
          (some (toL "10:00")) none).date ∧
    (CancelDetails.mk (some (toL "dentist")) (some (toL "2025-07-25"))
          (some (toL "10:00")) none).time =
      (StoredAppt.mk (toL "a1") (toL "team meeting") (toL "2025-07-25") (some (toL "10:00"))
          (toL "scheduled") none none).time ∧
    shouldCancelAppt
        (CancelDetails.mk (some (toL "dentist")) (some (toL "2025-07-25"))
          (some (toL "10:00")) none)
        (StoredAppt.mk (toL "a1") (toL "team meeting") (toL "2025-07-25") (some (toL "10:00"))
          (toL "scheduled") none none) = false ∧
    (cancelAppointments
        (CancelDetails.mk (some (toL "dentist")) (some (toL "2025-07-25"))
          (some (toL "10:00")) none)
        [StoredAppt.mk (toL "a1") (toL "team meeting") (toL "2025-07-25") (some (toL "10:00"))
          (toL "scheduled") none none]).1 =
      [StoredAppt.mk (toL "a1") (toL "team meeting") (toL "2025-07-25") (some (toL "10:00"))
        (toL "scheduled") none none] := by
  decide

/-- Claim C1 (amended): in the current revision a stored non-cancelled
appointment on the query date is selected for cancellation iff ALL of the
provided criteria hold — when a query title is given the appointment title
contains it case-insensitively (one direction only), when a query time is
given it equals the appointment time, and when query attendees are given
some query attendee is a case-insensitive substring of some appointment
attendee; matching is conjunctive, not any-of. -/
theorem claim_C1_amended :
    ∀ (d : CancelDetails) (store : List StoredAppt) (i : Nat) (a : StoredAppt) (ds : Str),
      d.date = some ds → ds ≠ [] →
      store[i]? = some a → a.date = ds → a.status ≠ cancelledStatus →
      (((cancelAppointments d store).1)[i]? =
          some (if shouldCancelAppt d a then { a with status := cancelledStatus } else a)) ∧
      (shouldCancelAppt d a = true ↔
        ((truthyStr d.title = true →
            hasSub (jsToLower a.title) (jsToLower (strOf d.title)) = true) ∧
          (truthyStr d.time = true → a.time = d.time) ∧
          (truthyList d.attendees = true →
            ((listOf d.attendees).any
                fun q => (listOf a.attendees).any fun x => hasSub (jsToLower x) (jsToLower q)) =
              true))) := by
  intro d store i a ds hds hne hget hdate hstat
  have htd : truthyStr d.date = true := by
    rw [hds, truthyStr]
    cases ds with
    | nil => exact absurd rfl hne
    | cons x xs => rfl
  have hdm : dateStatusMatch (strOf d.date) a = true := by
    rw [dateStatusMatch]
    have : strOf d.date = ds := by rw [hds]; rfl
    rw [this]
    simp [hdate, hstat]
  constructor
  · have hmem : a ∈ store := List.getElem?_mem hget
    have hfil : a ∈ store.filter (dateStatusMatch (strOf d.date)) :=
      List.mem_filter.mpr ⟨hmem, hdm⟩
    have hnonempty : (store.filter (dateStatusMatch (strOf d.date))).isEmpty = false := by
      cases hh : (store.filter (dateStatusMatch (strOf d.date))).isEmpty
      · rfl
      · rw [List.isEmpty_iff.mp hh] at hfil
        cases hfil
    rw [cancelAppointments, if_neg (by simp [htd])]
    have hfst :
        (if (store.filter (dateStatusMatch (strOf d.date))).countP (shouldCancelAppt d) = 0 then
            (store.map fun a =>
              if dateStatusMatch (strOf d.date) a && shouldCancelAppt d a then
                { a with status := cancelledStatus }
              else a,
              (⟨false, 0⟩ : IndexCancelResult))
          else
            (store.map fun a =>
              if dateStatusMatch (strOf d.date) a && shouldCancelAppt d a then
                { a with status := cancelledStatus }
              else a,
              (⟨true, (store.filter (dateStatusMatch (strOf d.date))).countP (shouldCancelAppt d)⟩ :
                IndexCancelResult))).1 =
          store.map fun a =>
            if dateStatusMatch (strOf d.date) a && shouldCancelAppt d a then
              { a with status := cancelledStatus }
            else a := by
      by_cases hc :
          (store.filter (dateStatusMatch (strOf d.date))).countP (shouldCancelAppt d) = 0 <;>
        simp [hc]
    simp only [hnonempty, Bool.false_eq_true, if_false, hfst]
    rw [List.getElem?_map, hget]
    cases hsc : shouldCancelAppt d a <;> simp [hdm, hsc]
  · rw [shouldCancelAppt_eq]
    cases ht : truthyStr d.title <;> cases htm : truthyStr d.time <;>
      cases hat : truthyList d.attendees <;>
        simp [ht, htm, hat]

/-- Witness for the amended claim C1: with a query title and time both
provided and both matching, the stored appointment is selected and
transitions to `cancelled`. -/
theorem claim_C1_witness :
    ((cancelAppointments
        (CancelDetails.mk (some (toL "team")) (some (toL "2025-07-25"))
          (some (toL "10:00")) none)
        [StoredAppt.mk (toL "a1") (toL "Team meeting") (toL "2025-07-25") (some (toL "10:00"))
          (toL "scheduled") none none]).1)[0]? =
      some (StoredAppt.mk (toL "a1") (toL "Team meeting") (toL "2025-07-25") (some (toL "10:00"))
        cancelledStatus none none) := by
  have h := (claim_C1_amended
    (CancelDetails.mk (some (toL "team")) (some (toL "2025-07-25")) (some (toL "10:00")) none)
    [StoredAppt.mk (toL "a1") (toL "Team meeting") (toL "2025-07-25") (some (toL "10:00"))
      (toL "scheduled") none none]
    0
    (StoredAppt.mk (toL "a1") (toL "Team meeting") (toL "2025-07-25") (some (toL "10:00"))
      (toL "scheduled") none none)
    (toL "2025-07-25") rfl (by decide) rfl rfl (by decide)).1
  rw [h]
  decide

/-- Claim C2: a cancel request with a query title where no stored document
on the date matches, but some stored title has similarity strictly above
0.30 to the query title, reports failure with exactly the above-threshold
titles as suggestions and leaves the store unchanged. -/
theorem claim_C2 :
    ∀ (d : CancelDetails) (store : List LegacyDoc) (qt : Str),
      d.title = some qt → qt ≠ [] →
      truthyStr d.date = true →
      (∀ a ∈ legacyDocsOnDate d store, legacyMatches d a = false) →
      (∃ a ∈ legacyDocsOnDate d store,
        (3 : ℚ) / 10 < calculateSimilarity (jsToLower qt) (jsToLower a.title)) →
      (cancelAppointmentsLegacy d store).1 = store ∧
      (cancelAppointmentsLegacy d store).2.success = false ∧
      (cancelAppointmentsLegacy d store).2.cancelledCount = 0 ∧
      (cancelAppointmentsLegacy d store).2.suggestions =
        ((legacyDocsOnDate d store).filter fun a =>
            decide ((3 : ℚ) / 10 <
              calculateSimilarity (jsToLower qt) (jsToLower a.title))).map legacyFmtLine ∧
      (cancelAppointmentsLegacy d store).2.suggestions ≠ [] := by
  intro d store qt hqt hne hdate hnomatch hsim
  have htitle : truthyStr d.title = true := by
    rw [hqt, truthyStr]
    cases qt with
    | nil => exact absurd rfl hne
    | cons x xs => rfl
  have hguard : ¬(!truthyStr d.date || (!truthyStr d.title && !truthyList d.attendees)) = true := by
    simp [hdate, htitle]
  have hmatched : (legacyDocsOnDate d store).filter (legacyMatches d) = [] :=
    List.filter_eq_nil_iff.mpr fun a ha => by simp [hnomatch a ha]
  have hq : strOf d.title = qt := by rw [hqt]; rfl
  have hout : cancelAppointmentsLegacy d store =
      (store,
        ⟨false, 0,
          ((legacyDocsOnDate d store).filter fun a =>
              decide ((3 : ℚ) / 10 <
                calculateSimilarity (jsToLower (strOf d.title)) (jsToLower a.title))).map
            legacyFmtLine,
          (legacyDocsOnDate d store).map legacyFmtLine⟩) := by
    rw [cancelAppointmentsLegacy, if_neg hguard]
    simp only [hmatched, List.length_nil, lt_irrefl, if_false, if_pos htitle]
  refine ⟨by rw [hout], by rw [hout], by rw [hout], by rw [hout, hq], ?_⟩
  rw [hout, hq]
  rcases hsim with ⟨a, hamem, hasim⟩
  have : a ∈ (legacyDocsOnDate d store).filter fun a =>
      decide ((3 : ℚ) / 10 < calculateSimilarity (jsToLower qt) (jsToLower a.title)) :=
    List.mem_filter.mpr ⟨hamem, by simpa using hasim⟩
  intro hnil
  simp only [ne_eq] at hnil
  rw [List.map_eq_nil_iff] at hnil
  rw [hnil] at this
  cases this

/-- Witness for claim C2: querying for "meetng" against a stored "meeting"
matches nothing but scores similarity 6/7, so the store is untouched and a
suggestion is offered. -/
theorem claim_C2_witness :
    (cancelAppointmentsLegacy
        (CancelDetails.mk (some (toL "meetng")) (some (toL "2025-07-25")) none none)
        [LegacyDoc.mk (toL "a1") (toL "meeting") (toL "2025-07-25") (some (toL "10:00"))
          none none]).1 =
      [LegacyDoc.mk (toL "a1") (toL "meeting") (toL "2025-07-25") (some (toL "10:00"))
        none none] ∧
    (cancelAppointmentsLegacy
        (CancelDetails.mk (some (toL "meetng")) (some (toL "2025-07-25")) none none)
        [LegacyDoc.mk (toL "a1") (toL "meeting") (toL "2025-07-25") (some (toL "10:00"))
          none none]).2.success = false ∧
    (cancelAppointmentsLegacy
        (CancelDetails.mk (some (toL "meetng")) (some (toL "2025-07-25")) none none)
        [LegacyDoc.mk (toL "a1") (toL "meeting") (toL "2025-07-25") (some (toL "10:00"))
          none none]).2.suggestions ≠ [] := by
  have hsim : (3 : ℚ) / 10 <
      calculateSimilarity (jsToLower (toL "meetng")) (jsToLower (toL "meeting")) := by
    have h1 : jsToLower (toL "meetng") = toL "meetng" := by decide
    have h2 : jsToLower (toL "meeting") = toL "meeting" := by decide
    rw [h1, h2, calculateSimilarity_formula (toL "meetng") (toL "meeting") (by decide) (by decide)]
    have h3 : levenshteinDistance (toL "meetng") (toL "meeting") = 1 := by decide
    have h4 : max (toL "meetng").length (toL "meeting").length = 7 := by decide
    rw [h3, h4]
    norm_num
  have h := claim_C2
    (CancelDetails.mk (some (toL "meetng")) (some (toL "2025-07-25")) none none)
    [LegacyDoc.mk (toL "a1") (toL "meeting") (toL "2025-07-25") (some (toL "10:00")) none none]
    (toL "meetng") rfl (by decide) (by decide) (by decide)
    ⟨LegacyDoc.mk (toL "a1") (toL "meeting") (toL "2025-07-25") (some (toL "10:00")) none none,
      by decide, hsim⟩
  exact ⟨h.1, h.2.1, h.2.2.2.2⟩

/-- Claim C7 evaluation: both run-timeout errors are caught into a
`success: false` result, but because `'Assistant run timed out'` does not
contain the substring `'timeout'`, the handler returns the generic apology,
not the "taking longer than usual" message the dedicated branch was written
to produce. -/
theorem claim_C7_code_eval :
    catchTurnError timeoutRunMsg = ⟨false, genericTurnErrorMsg⟩ ∧
    catchTurnError timeoutRunAfterToolsMsg = ⟨false, genericTurnErrorMsg⟩ ∧
    genericTurnErrorMsg ≠ takingLongerMsg ∧
    hasSub timeoutRunMsg (toL "timeout") = false := by
  decide

/-- Claim C9: a missing, non-string, or whitespace-only command makes the
entry point fail with exactly `The command text is missing or invalid.`
before any assistant, thread or storage operation is attempted, and any
other command string is processed in trimmed form. -/
theorem claim_C9 :
    ∀ v : JSVal,
      (isStringVal v = false → processVoiceCommandPrefix v = .error commandInvalidMsg) ∧
      ∀ s : Str, v = .vStr s →
        (jsTrim s = [] → processVoiceCommandPrefix v = .error commandInvalidMsg) ∧
        (jsTrim s ≠ [] →
          processVoiceCommandPrefix v =
            .ok (jsTrim s, [TurnOp.openaiInit, TurnOp.assistantResolve, TurnOp.threadResolve,
              TurnOp.contextRead, TurnOp.messageAppend, TurnOp.runCreate])) := by
  intro v
  constructor
  · intro hs
    cases v with
    | vStr s => simp [isStringVal] at hs
    | vNum n => simp [processVoiceCommandPrefix, validateCommand]
    | vBool b => simp [processVoiceCommandPrefix, validateCommand]
    | vNull => simp [processVoiceCommandPrefix, validateCommand]
    | vUndef => simp [processVoiceCommandPrefix, validateCommand]
  · intro s hv
    subst hv
    constructor
    · intro htrim
      simp [processVoiceCommandPrefix, validateCommand, htrim]
    · intro htrim
      have hsne : s ≠ [] := by
        intro hs
        subst hs
        exact htrim rfl
      have hlen : ((jsTrim s).length = 0) = False := by
        simp [List.length_eq_zero]
        exact htrim
      simp [processVoiceCommandPrefix, validateCommand, jsTruthy, isStringVal, hsne, hlen]

/-- Witness for claim C9: a padded command string is accepted and processed
trimmed. -/
theorem claim_C9_witness :
    processVoiceCommandPrefix (JSVal.vStr (toL "  book a meeting ")) =
      .ok (jsTrim (toL "  book a meeting "),
        [TurnOp.openaiInit, TurnOp.assistantResolve, TurnOp.threadResolve,
          TurnOp.contextRead, TurnOp.messageAppend, TurnOp.runCreate]) :=
  ((claim_C9 (JSVal.vStr (toL "  book a meeting "))).2 (toL "  book a meeting ") rfl).2
    (by decide)

theorem isYmdFormat_of_parts (y m d : Str)
    (hy4 : y.length = 4) (hya : y.all isDigitCh = true)
    (hm2 : m.length = 2) (hma : m.all isDigitCh = true)
    (hd2 : d.length = 2) (hda : d.all isDigitCh = true) :
    isYmdFormat (y ++ toL "-" ++ m ++ toL "-" ++ d) = true := by
  rcases y with _ | ⟨c1, _ | ⟨c2, _ | ⟨c3, _ | ⟨c4, _ | ⟨c5, yr⟩⟩⟩⟩⟩ <;> simp_all
  rcases m with _ | ⟨e1, _ | ⟨e2, _ | ⟨e3, mr⟩⟩⟩ <;> simp_all
  rcases d with _ | ⟨f1, _ | ⟨f2, _ | ⟨f3, dr⟩⟩⟩ <;> simp_all
  show isYmdFormat [c1, c2, c3, c4, '-', e1, e2, '-', f1, f2] = true
  simp only [isYmdFormat]
  simp_all

/-- Claim C10: `getCurrentDateInTimezone` is total — assuming the Intl
formatter yields digit-valued year/month/day parts when it succeeds and the
UTC fallback is a `YYYY-MM-DD` string, the result is always a `YYYY-MM-DD`
string — and an unrecognized timezone (a throwing formatter) falls back to
the current UTC date. -/
theorem claim_C10 :
    ∀ (timezone : Str) (intl : Str → Except Unit IntlParts) (utcToday : Str),
      (∀ p, intl timezone = .ok p →
        ∃ y m d, p.year = some y ∧ p.month = some m ∧ p.day = some d ∧
          y.length = 4 ∧ y.all isDigitCh = true ∧
          m.length = 2 ∧ m.all isDigitCh = true ∧
          d.length = 2 ∧ d.all isDigitCh = true) →
      isYmdFormat utcToday = true →
      isYmdFormat (getCurrentDateInTimezone timezone intl utcToday) = true ∧
      (∀ e, intl timezone = .error e →
        getCurrentDateInTimezone timezone intl utcToday = utcToday) := by
  intro timezone intl utcToday hok hutc
  cases hcase : intl timezone with
  | error e =>
    constructor
    · simp only [getCurrentDateInTimezone, hcase]
      exact hutc
    · intro e2 _
      simp only [getCurrentDateInTimezone, hcase]
  | ok p =>
    constructor
    · obtain ⟨y, m, d, hy, hm, hd, hy4, hya, hm2, hma, hd2, hda⟩ := hok p hcase
      simp only [getCurrentDateInTimezone, hcase, hy, hm, hd, optPartValue]
      exact isYmdFormat_of_parts y m d hy4 hya hm2 hma hd2 hda
    · intro e2 he
      exact Except.noConfusion he

/-- Witness for claim C10 with a formatter that succeeds with concrete
digit parts, and one that always throws. -/
theorem claim_C10_witness :
    isYmdFormat
      (getCurrentDateInTimezone (toL "America/New_York")
        (fun _ => .ok ⟨some (toL "2026"), some (toL "10"), some (toL "11")⟩)
        (toL "2026-10-11")) = true ∧
    getCurrentDateInTimezone (toL "Not/AZone") (fun _ => .error ())
      (toL "2026-10-11") = toL "2026-10-11" := by
  constructor
  · exact (claim_C10 (toL "America/New_York")
      (fun _ => .ok ⟨some (toL "2026"), some (toL "10"), some (toL "11")⟩)
      (toL "2026-10-11")
      (fun p hp => by
        cases hp
        exact ⟨toL "2026", toL "10", toL "11", rfl, rfl, rfl, by decide, by decide,
          by decide, by decide, by decide, by decide⟩)
      (by decide)).1
  · exact (claim_C10 (toL "Not/AZone") (fun _ => .error ()) (toL "2026-10-11")
      (fun p hp => by cases hp) (by decide)).2 () rfl
